import Mathlib

/-!
Verification of the completion engine and alias store of the `nsh` shell
(`src/completion.rs`, `src/alias.rs`), shallowly embedded in Lean 4.

Modelling choices:
* Rust `usize`/`isize` values are modelled as `Nat`/`Int`.  The only cast
  whose wrap-around behaviour is observable in the embedded fragment is the
  `current_word_index as usize` cast in `CompletionContext::current_word`,
  which is modelled exactly via `% 2^64`.  The `selected_index as isize`
  cast in `move_cursor` is modelled as an unbounded integer (the source
  itself flags its overflow handling with a FIXME; all properties below
  concern values far from `2^63`).
* External collaborators that are not part of the repository (the parser's
  `is_valid_word_char` predicate, the fuzzy-ranking `search`, the
  filesystem, the executable index `path::complete`, the alias grammar
  `parse_alias`, and the generator registry) are universally-quantified
  parameters of the embedded functions; concrete instances used by the
  scenario theorems are explicitly marked as modelled from the spec.
* A Rust `panic!` (out-of-bounds index, `unwrap` failure) is modelled by
  returning `none` from the embedded function.
-/

/-- Browser state: `struct Completions` of `src/completion.rs`. -/
structure Completions where
  entries : List String
  selected_index : Nat
  display_lines : Nat
  display_index : Nat
deriving DecidableEq

/-- `Completions::new`: fresh browser over ranked entries, window height 5
(`COMPLETION_LINES`). -/
def Completions.new (entries : List String) : Completions :=
  { entries := entries
    selected_index := 0
    display_lines := 5
    display_index := 0 }

/-- `Completions::len`. -/
def Completions.len (c : Completions) : Nat := c.entries.length

/-- `Completions::move_cursor`: clamp `selected_index + offset` into
`[0, len-1]` (the upper clamp only fires when `entries` is non-empty), then
slide the display window.  Faithful to the source's statement order. -/
def Completions.move_cursor (c : Completions) (offset : Int) : Completions :=
  let old0 : Int := (c.selected_index : Int) + offset
  let entries_len : Int := (c.len : Int)
  let old1 : Int := if entries_len > 0 ∧ old0 > entries_len - 1 then entries_len - 1 else old0
  let old2 : Int := if old1 < 0 then 0 else old1
  let sel : Nat := old2.toNat
  let di1 : Nat :=
    if c.display_index + c.display_lines ≤ sel then sel - c.display_lines + 1 else c.display_index
  let di2 : Nat := if sel < di1 then sel else di1
  { c with selected_index := sel, display_index := di2 }

/-- `Completions::selected`: `entries.get(selected_index).cloned()` — total,
`none` when the index is out of bounds. -/
def Completions.selected (c : Completions) : Option String :=
  c.entries[c.selected_index]?

/-- One `move_cursor` call leaves the display window around the selection,
using only that the window height is positive. -/
lemma move_cursor_window (c : Completions) (offset : Int) (hdl : 0 < c.display_lines) :
    (c.move_cursor offset).display_index ≤ (c.move_cursor offset).selected_index ∧
      (c.move_cursor offset).selected_index <
        (c.move_cursor offset).display_index + (c.move_cursor offset).display_lines := by
  simp only [Completions.move_cursor]
  split_ifs <;> constructor <;> omega

/-- One `move_cursor` call clamps the selection strictly below `len`
whenever `entries` is non-empty. -/
lemma move_cursor_bound (c : Completions) (offset : Int) (hne : c.entries ≠ []) :
    (c.move_cursor offset).selected_index < c.entries.length := by
  have hpos : 0 < c.entries.length := List.length_pos.mpr hne
  simp only [Completions.move_cursor, Completions.len]
  split_ifs <;> omega

lemma move_cursor_display_lines (c : Completions) (offset : Int) :
    (c.move_cursor offset).display_lines = c.display_lines := rfl

lemma move_cursor_entries (c : Completions) (offset : Int) :
    (c.move_cursor offset).entries = c.entries := rfl

/-- The browser invariant propagated through an arbitrary sequence of
`move_cursor` calls. -/
lemma foldl_move_cursor_inv (offs : List Int) (c : Completions)
    (hdl : 0 < c.display_lines)
    (hwin : c.display_index ≤ c.selected_index ∧
      c.selected_index < c.display_index + c.display_lines)
    (hbnd : c.entries ≠ [] → c.selected_index < c.entries.length) :
    (offs.foldl Completions.move_cursor c).display_index ≤
        (offs.foldl Completions.move_cursor c).selected_index ∧
      (offs.foldl Completions.move_cursor c).selected_index <
        (offs.foldl Completions.move_cursor c).display_index +
          (offs.foldl Completions.move_cursor c).display_lines ∧
      ((offs.foldl Completions.move_cursor c).entries ≠ [] →
        (offs.foldl Completions.move_cursor c).selected_index <
          (offs.foldl Completions.move_cursor c).entries.length) := by
  induction offs generalizing c with
  | nil =>
    exact ⟨hwin.1, hwin.2, hbnd⟩
  | cons o rest ih =>
    have hdl' : 0 < (c.move_cursor o).display_lines := by
      rw [move_cursor_display_lines]; exact hdl
    have hwin' := move_cursor_window c o hdl
    have hbnd' : (c.move_cursor o).entries ≠ [] →
        (c.move_cursor o).selected_index < (c.move_cursor o).entries.length := by
      intro hne
      rw [move_cursor_entries] at hne ⊢
      exact move_cursor_bound c o hne
    simpa using ih (c.move_cursor o) hdl' hwin' hbnd'

/-- C1 counterexample: starting from an empty entries list, a single
`move_cursor 1` call leaves `entries` empty but sets `selected_index = 1`
(the upper clamp is skipped when `entries_len = 0`, and `1` is not below
`0`), so `selected_index == 0 whenever entries is empty` fails. -/
theorem c1_counterexample :
    ((Completions.new ([] : List String)).move_cursor 1).entries = [] ∧
      ((Completions.new ([] : List String)).move_cursor 1).selected_index = 1 := by
  constructor <;> rfl

/-- C1 (amended): for every entries list and every sequence of `move_cursor`
calls with arbitrary integer offsets, after each call
`0 ≤ display_index ≤ selected_index < display_index + display_lines` holds,
and `selected_index < entries.length` whenever `entries` is non-empty; the
original clause `selected_index = 0` for empty `entries` does not hold (see
the counterexample), because the upper clamp is skipped when the entries
list is empty. -/
theorem c1_browser_invariant (entries : List String) (offs : List Int) :
    0 ≤ (offs.foldl Completions.move_cursor (Completions.new entries)).display_index ∧
      (offs.foldl Completions.move_cursor (Completions.new entries)).display_index ≤
        (offs.foldl Completions.move_cursor (Completions.new entries)).selected_index ∧
      (offs.foldl Completions.move_cursor (Completions.new entries)).selected_index <
        (offs.foldl Completions.move_cursor (Completions.new entries)).display_index +
          (offs.foldl Completions.move_cursor (Completions.new entries)).display_lines ∧
      ((offs.foldl Completions.move_cursor (Completions.new entries)).entries ≠ [] →
        (offs.foldl Completions.move_cursor (Completions.new entries)).selected_index <
          (offs.foldl Completions.move_cursor (Completions.new entries)).entries.length) := by
  have h := foldl_move_cursor_inv offs (Completions.new entries)
    (by simp [Completions.new])
    (by simp [Completions.new])
    (by intro hne; simp [Completions.new]; exact List.length_pos.mpr hne)
  exact ⟨Nat.zero_le _, h.1, h.2.1, h.2.2⟩

/-- C1 witness: a concrete run of the amended invariant, entries
`["a", "b"]`, offsets `[5, -1]`. -/
theorem c1_browser_invariant_witness :
    ([(5 : Int), -1].foldl Completions.move_cursor (Completions.new ["a", "b"])).selected_index <
      ([(5 : Int), -1].foldl Completions.move_cursor (Completions.new ["a", "b"])).entries.length :=
  (c1_browser_invariant ["a", "b"] [5, -1]).2.2.2 (by decide)

/-- `struct CompletionContext` of `src/completion.rs`.  The `line` is kept
as the character sequence the scanner iterates over. -/
structure CompletionContext where
  words : List String
  current_word_index : Int
  line : List Char
  current_word_offset : Nat
  current_word_len : Nat
  user_cursor : Nat
deriving DecidableEq

/-- The `as usize` cast applied to `current_word_index` in
`CompletionContext::current_word` (a negative `isize` wraps modulo `2^64`). -/
def usizeCast (i : Int) : Nat := (i % ((2 : Int) ^ 64)).toNat

/-- `CompletionContext::current_word`:
`self.words.get(self.current_word_index as usize).cloned()`. -/
def CompletionContext.current_word (ctx : CompletionContext) : Option String :=
  ctx.words[usizeCast ctx.current_word_index]?

/-- Modelled from the spec: `parser::is_valid_word_char` is an external
collaborator of the tokenizer (spec section 6) whose definition is not part
of the embedded sources.  It is modelled so that the characters appearing in
the spec's scenarios (letters, digits, `/`, `-`, `_`, `.`, `~`) are valid
word characters and shell metacharacters (`|`, `$`, parentheses, `<`, `>`,
`&`, `;`, space, quotes, backslash) are not. -/
def is_valid_word_char (c : Char) : Bool :=
  c.isAlphanum || c == '/' || c == '-' || c == '_' || c == '.' || c == '~'

/-- Rust `str::trim_matches('\\')`: removes all leading and trailing
backslashes. -/
def trimBackslashes (s : String) : String :=
  String.mk (((s.data.dropWhile (fun c => c == '\\')).reverse.dropWhile
    (fun c => c == '\\')).reverse)

/-- Scanner state of the first loop of `extract_completion_context`:
accumulated words, in-progress word buffer, in-double-quote flag, previous
character, and running current-word offset. -/
structure ScanState where
  words : List String
  word : String
  inString : Bool
  prevCh : Char
  currentWordOffset : Nat
deriving DecidableEq

/-- One iteration of the first scanning loop of
`extract_completion_context` (match arms in source order; every arm is
followed by `prev_ch = ch`). -/
def scanStep1 (valid : Char → Bool) (st : ScanState) (p : Nat × Char) : ScanState :=
  let offset := p.1
  let ch := p.2
  if st.inString = true ∧ st.prevCh = '\\' ∧ ch = '"' then
    { st with word := (trimBackslashes st.word).push '"', prevCh := ch }
  else if st.inString = true ∧ ch = '"' then
    { st with inString := false, prevCh := ch }
  else if st.inString = false ∧ ch = '"' then
    { st with inString := true, prevCh := ch }
  else if st.inString = false ∧ ch = ' ' then
    { st with
      words := st.words ++ [st.word]
      word := ""
      currentWordOffset := offset + 1
      prevCh := ch }
  else if st.inString = false ∧ valid ch = false ∧ ch ≠ '*' ∧ ch ≠ '?' then
    { st with words := [], word := "", currentWordOffset := offset + 1, prevCh := ch }
  else
    { st with word := st.word.push ch, prevCh := ch }

/-- The first loop: fold `scanStep1` over the enumerated characters strictly
before the cursor, starting from the empty state (`prev_ch = '\x00'`). -/
def passOne (valid : Char → Bool) (line : List Char) (cursor : Nat) : ScanState :=
  ((line.take cursor).enum).foldl (scanStep1 valid)
    { words := [], word := "", inString := false, prevCh := '\x00', currentWordOffset := 0 }

/-- The second loop of `extract_completion_context`: scans from the cursor
to end of line, carrying the quote flag and word buffer over from the first
loop.  The source never updates `prev_ch` inside this loop, so it stays
frozen at the first loop's final value; the loop `break`s (returning the
state unchanged) at the first invalid non-wildcard character outside
quotes. -/
def passTwo (valid : Char → Bool) (prevCh : Char) :
    List Char → Bool → String → Bool × String
  | [], inStr, word => (inStr, word)
  | ch :: rest, inStr, word =>
    if inStr = true ∧ prevCh = '\\' ∧ ch = '"' then
      passTwo valid prevCh rest inStr ((trimBackslashes word).push '"')
    else if inStr = true ∧ ch = '"' then
      passTwo valid prevCh rest false word
    else if inStr = false ∧ ch = '"' then
      passTwo valid prevCh rest true word
    else if inStr = false ∧ valid ch = false ∧ ch ≠ '*' ∧ ch ≠ '?' then
      (inStr, word)
    else
      passTwo valid prevCh rest inStr (word.push ch)

/-- `extract_completion_context` of `src/completion.rs`, parametrised by the
external `is_valid_word_char` predicate.  After the two loops, a non-empty
trailing word buffer is appended as one additional final word and
`current_word_index`/`current_word_len` updated to reference it. -/
def extract_completion_context (valid : Char → Bool) (user_input : List Char)
    (user_cursor : Nat) : CompletionContext :=
  let st := passOne valid user_input user_cursor
  let p2 := passTwo valid st.prevCh (user_input.drop user_cursor) st.inString st.word
  let word := p2.2
  if word = "" then
    { words := st.words
      current_word_index := (st.words.length : Int)
      line := user_input
      current_word_offset := st.currentWordOffset
      current_word_len := 0
      user_cursor := user_cursor }
  else
    { words := st.words ++ [word]
      current_word_index := ((st.words ++ [word]).length : Int) - 1
      line := user_input
      current_word_offset := st.currentWordOffset
      current_word_len := word.utf8ByteSize
      user_cursor := user_cursor }

/-- The returned `current_word_index` is never negative: it is either the
length of `words` or (after the trailing push) length minus one. -/
lemma extract_index_nonneg (valid : Char → Bool) (line : List Char) (cursor : Nat) :
    0 ≤ (extract_completion_context valid line cursor).current_word_index := by
  simp only [extract_completion_context]
  split
  · exact Int.ofNat_nonneg _
  · simp only [List.length_append, List.length_cons, List.length_nil]
    omega

/-- When the returned `current_word_index` is positive, `words` is
non-empty. -/
lemma extract_words_ne_nil (valid : Char → Bool) (line : List Char) (cursor : Nat)
    (h : 0 < (extract_completion_context valid line cursor).current_word_index) :
    (extract_completion_context valid line cursor).words ≠ [] := by
  revert h
  simp only [extract_completion_context]
  split
  · intro h
    dsimp only at h ⊢
    have h' : 0 < (passOne valid line cursor).words.length := by exact_mod_cast h
    exact List.length_pos.mp h'
  · intro _
    simp

/-- C2 counterexample: on the empty line the extractor returns
`current_word_index = 0` (which is `≥ 0`) together with empty `words`, so
the clause `current_word_index ≥ 0 → words non-empty` is false — it
contradicts the documented empty-line edge case the claim also includes. -/
theorem c2_counterexample :
    0 ≤ (extract_completion_context is_valid_word_char [] 0).current_word_index ∧
      (extract_completion_context is_valid_word_char [] 0).words = [] := by
  constructor <;> decide

/-- C2 (amended): for every context returned by
`extract_completion_context`, if `current_word_index > 0` (rather than
`≥ 0`) then `words` is non-empty; and the empty line yields empty `words`
with `current_word_index = 0`, the command-name position. -/
theorem c2_words_invariant (valid : Char → Bool) (line : List Char) (cursor : Nat) :
    (0 < (extract_completion_context valid line cursor).current_word_index →
      (extract_completion_context valid line cursor).words ≠ []) ∧
      (extract_completion_context valid [] cursor).words = [] ∧
      (extract_completion_context valid [] cursor).current_word_index = 0 := by
  refine ⟨extract_words_ne_nil valid line cursor, ?_, ?_⟩ <;>
    simp [extract_completion_context, passOne, passTwo]

/-- C2 witness: at line `ls a` with the cursor at its end the index is `1 > 0`
and `words = ["ls", "a"]` is non-empty. -/
theorem c2_words_invariant_witness :
    (extract_completion_context is_valid_word_char ("ls a".toList) 4).words ≠ [] :=
  (c2_words_invariant is_valid_word_char ("ls a".toList) 4).1 (by decide)

/-- C4: for every validity predicate, every input line and every cursor
offset (including offsets past the end of the line), the extractor is a
total function (no panics: it performs no indexing or unwrap) and the
returned `current_word_index` is non-negative. -/
theorem c4_extract_total_nonneg (valid : Char → Bool) (line : List Char) (cursor : Nat) :
    0 ≤ (extract_completion_context valid line cursor).current_word_index :=
  extract_index_nonneg valid line cursor

/-- The escaped-quote rule as the claim words it: strip exactly one trailing
backslash from the buffer (a spec-side variant, for comparison with the
source's `trim_matches('\\')`, which strips all leading and trailing
backslashes). -/
def stripOneTrailingBackslash (s : String) : String :=
  match s.data.reverse with
  | c :: rest => if c = '\\' then String.mk rest.reverse else s
  | [] => s

/-- C3 counterexample: on the line `"a\\"` (open quote, `a`, two
backslashes, quote) with the cursor at its end, the code produces the word
`a"` — `trim_matches('\\')` removed both trailing backslashes — whereas
stripping exactly one trailing backslash from the buffer `a\\` before
appending the quote would produce `a\"`. -/
theorem c3_counterexample :
    (extract_completion_context is_valid_word_char ['"', 'a', '\\', '\\', '"'] 5).words =
        [String.mk ['a', '"']] ∧
      (extract_completion_context is_valid_word_char ['"', 'a', '\\', '\\', '"'] 5).words ≠
        [(stripOneTrailingBackslash (String.mk ['a', '\\', '\\'])).push '"'] := by
  constructor <;> decide

/-- C3 (amended): while the in-double-quote flag is set, encountering `"`
with previous character `\` strips all leading and trailing backslashes
from the in-progress word buffer (Rust `trim_matches('\\')`, not exactly
one trailing backslash) and appends a literal `"` without toggling the
quote state; for the claim's example `echo "a\"b" c` (one trailing
backslash in the buffer) the two readings agree and the word `a"b` appears
in `words` as a single token with the embedded quote. -/
theorem c3_escaped_quote (valid : Char → Bool) (st : ScanState) (off : Nat)
    (h1 : st.inString = true) (h2 : st.prevCh = '\\') :
    (scanStep1 valid st (off, '"')).word = (trimBackslashes st.word).push '"' ∧
      (scanStep1 valid st (off, '"')).inString = true ∧
      (extract_completion_context is_valid_word_char ("echo \"a\\\"b\" c".toList) 13).words =
        ["echo", "a\"b", "c"] := by
  refine ⟨?_, ?_, by decide⟩ <;> simp [scanStep1, h1, h2]

/-- C3 witness: the escaped-quote step applied to a concrete in-quote state
whose buffer is `a\` with previous character `\`. -/
theorem c3_escaped_quote_witness :
    (scanStep1 is_valid_word_char
        { words := [], word := "a\\", inString := true, prevCh := '\\',
          currentWordOffset := 0 } (3, '"')).word =
      (trimBackslashes "a\\").push '"' ∧
      (scanStep1 is_valid_word_char
        { words := [], word := "a\\", inString := true, prevCh := '\\',
          currentWordOffset := 0 } (3, '"')).inString = true ∧
      (extract_completion_context is_valid_word_char ("echo \"a\\\"b\" c".toList) 13).words =
        ["echo", "a\"b", "c"] :=
  c3_escaped_quote is_valid_word_char
    { words := [], word := "a\\", inString := true, prevCh := '\\', currentWordOffset := 0 }
    3 rfl rfl

/-- C7: in the first scanning pass, a character outside double quotes that
is not a valid word character and is neither `*` nor `?` (and is not a
space or `"`, which the dedicated earlier match arms consume — the spec
lists the quote and space rules before the reset rule) clears the
accumulated `words`, restarts the word buffer, and advances the word
offset; consequently, for `ls foo | grep bar` with the cursor after `bar`,
the returned `words` start fresh after the `|` and contain neither `ls` nor
`foo` (the spec-modelled validity predicate rejects `|`). -/
theorem c7_metachar_reset (valid : Char → Bool) (st : ScanState) (off : Nat) (ch : Char)
    (h1 : st.inString = false) (h2 : valid ch = false) (h3 : ch ≠ '*') (h4 : ch ≠ '?')
    (h5 : ch ≠ ' ') (h6 : ch ≠ '"') :
    (scanStep1 valid st (off, ch)).words = [] ∧
      (scanStep1 valid st (off, ch)).word = "" ∧
      (scanStep1 valid st (off, ch)).currentWordOffset = off + 1 ∧
      (extract_completion_context is_valid_word_char ("ls foo | grep bar".toList) 17).words =
        ["", "grep", "bar"] ∧
      "ls" ∉
        (extract_completion_context is_valid_word_char ("ls foo | grep bar".toList) 17).words ∧
      "foo" ∉
        (extract_completion_context is_valid_word_char ("ls foo | grep bar".toList) 17).words := by
  refine ⟨?_, ?_, ?_, by decide, by decide, by decide⟩ <;>
    simp [scanStep1, h1, h2, h3, h4, h5, h6]

/-- C7 witness: the reset step applied to the `|` of `ls foo | grep bar`
(state after scanning `ls foo `, about to read the `|` at offset 7). -/
theorem c7_metachar_reset_witness :
    (scanStep1 is_valid_word_char
        { words := ["ls", "foo"], word := "", inString := false, prevCh := ' ',
          currentWordOffset := 7 } (7, '|')).words = [] ∧
      (scanStep1 is_valid_word_char
        { words := ["ls", "foo"], word := "", inString := false, prevCh := ' ',
          currentWordOffset := 7 } (7, '|')).word = "" ∧
      (scanStep1 is_valid_word_char
        { words := ["ls", "foo"], word := "", inString := false, prevCh := ' ',
          currentWordOffset := 7 } (7, '|')).currentWordOffset = 8 ∧
      (extract_completion_context is_valid_word_char ("ls foo | grep bar".toList) 17).words =
        ["", "grep", "bar"] ∧
      "ls" ∉
        (extract_completion_context is_valid_word_char ("ls foo | grep bar".toList) 17).words ∧
      "foo" ∉
        (extract_completion_context is_valid_word_char ("ls foo | grep bar".toList) 17).words :=
  c7_metachar_reset is_valid_word_char
    { words := ["ls", "foo"], word := "", inString := false, prevCh := ' ',
      currentWordOffset := 7 } 7 '|' rfl rfl (by decide) (by decide) (by decide) (by decide)

/-- One directory entry as seen by `path_completion`:
`Except.error` models a failing per-entry read (`entry` of the iterator
being `Err`), `Except.ok none` an entry whose path is not valid UTF-8
(`to_str()` returning `None`), and `Except.ok (some s)` a readable entry
with UTF-8 path `s`. -/
abbrev FsEntry := Except Unit (Option String)

/-- The filesystem collaborator: `std::fs::read_dir` keyed by the path
string; `Except.error` models a failed directory open. -/
abbrev Fs := String → Except Unit (List FsEntry)

/-- The ranking collaborator: `FuzzyVec::from_vec(entries).search(query)`. -/
abbrev Search := List String → String → List String

/-- The `CompGen` builder state (entries plus optional query). -/
structure CompGen where
  entries : List String
  query : Option String
deriving DecidableEq

/-- `CompGen::build`, parametrised by the external ranking collaborator:
with a query, rank the entries against it; without one, keep them
verbatim. -/
def CompGen.build (se : Search) (g : CompGen) : Completions :=
  match g.query with
  | some q => Completions.new (se g.entries q)
  | none => Completions.new g.entries

/-- Model of Rust `Path::parent` on `/`-separated path strings: drop the
final component and the separators before it; `none` for the empty path and
for paths consisting only of separators (root). -/
def rustParent (s : String) : Option String :=
  if s.data = [] then none
  else if s.data.all (fun c => c == '/') then none
  else
    let afterComp :=
      (s.data.reverse.dropWhile (fun c => !(c == '/'))).dropWhile (fun c => c == '/')
    if afterComp = [] then
      if s.data.head? = some '/' then some (String.mk ['/']) else some (String.mk [])
    else some (String.mk afterComp.reverse)

/-- `given_dir.ends_with('/')`. -/
def strEndsWithSlash (s : String) : Bool := s.data.getLast? == some '/'

/-- `given_dir.contains('/')`. -/
def strContainsSlash (s : String) : Bool := s.data.any (fun c => c == '/')

/-- The directory `path_completion` asks the filesystem collaborator to
list, following the source's match on `given_dir`: a word ending in `/` is
listed itself; a word containing `/` is listed via its parent (whose
`unwrap` is modelled by the `Option`); otherwise the working directory
`"."`.  `none` models the `parent().unwrap()` panic. -/
def dirToRead (given_dir : Option String) : Option String :=
  match given_dir with
  | some d =>
    if strEndsWithSlash d then some d
    else if strContainsSlash d then rustParent d
    else some "."
  | none => some "."

/-- The entry-collection loop of `path_completion`: `entry.unwrap()` and
`path().to_str().unwrap()` panic (modelled by `none`) on a failing entry
read or a non-UTF-8 path. -/
def collectEntries : List FsEntry → Option (List String)
  | [] => some []
  | Except.error _ :: _ => none
  | Except.ok none :: _ => none
  | Except.ok (some s) :: rest => (collectEntries rest).map (fun l => s :: l)

/-- `path_completion` of `src/completion.rs`, parametrised by the
filesystem and ranking collaborators.  A failed directory open leaves the
entry list empty (the `if let Ok` is skipped); the result is built with the
current word as ranking query.  `none` models a panic. -/
def path_completion (fs : Fs) (se : Search) (ctx : CompletionContext) : Option Completions :=
  match dirToRead ctx.current_word with
  | none => none
  | some d =>
    match fs d with
    | Except.error _ => some (CompGen.build se { entries := [], query := ctx.current_word })
    | Except.ok l =>
      (collectEntries l).map
        (fun es => CompGen.build se { entries := es, query := ctx.current_word })

/-- `cmd_completion`: delegates to the external executable-index
collaborator `crate::path::complete`, passing the current word (or the
empty string when there is none). -/
def cmd_completion (complete : String → Completions) (ctx : CompletionContext) : Completions :=
  match ctx.current_word with
  | some q => complete q
  | none => complete ""

/-- `call_completion` of `src/completion.rs`, parametrised by the generator
registry (`COMPLETION_FUNCS`), the executable-index collaborator, and the
collaborators `path_completion` needs.  `none` models the `ctx.words[0]`
panic. -/
def call_completion (registry : String → Option (CompletionContext → Completions))
    (complete : String → Completions) (fs : Fs) (se : Search)
    (ctx : CompletionContext) : Option Completions :=
  if ctx.current_word_index = 0 then some (cmd_completion complete ctx)
  else
    match ctx.words[0]? with
    | none => none
    | some w0 =>
      match registry w0 with
      | some f => some (f ctx)
      | none => path_completion fs se ctx

/-- C5: dispatch.  For every context produced by
`extract_completion_context`: index `0` always goes to command-name
completion regardless of the registry; a non-zero index looks up `words[0]`
(which exists, so the access cannot panic), invoking the registered
generator on a hit and path completion on a miss; and with an empty
registry and index `1` the result is exactly `path_completion` on the same
context. -/
theorem c5_dispatch (registry : String → Option (CompletionContext → Completions))
    (complete : String → Completions) (fs : Fs) (se : Search)
    (valid : Char → Bool) (line : List Char) (cursor : Nat)
    (ctx : CompletionContext)
    (hctx : ctx = extract_completion_context valid line cursor) :
    (ctx.current_word_index = 0 →
      call_completion registry complete fs se ctx = some (cmd_completion complete ctx)) ∧
      (ctx.current_word_index ≠ 0 →
        ctx.words ≠ [] ∧
        ∀ w0, ctx.words[0]? = some w0 →
          call_completion registry complete fs se ctx =
            (match registry w0 with
             | some f => some (f ctx)
             | none => path_completion fs se ctx)) ∧
      ((∀ s, registry s = none) → ctx.current_word_index = 1 →
        call_completion registry complete fs se ctx = path_completion fs se ctx) := by
  have hnonneg : 0 ≤ ctx.current_word_index := by
    rw [hctx]; exact extract_index_nonneg valid line cursor
  refine ⟨?_, ?_, ?_⟩
  · intro h0
    simp [call_completion, h0]
  · intro hne
    have hw : ctx.words ≠ [] := by
      subst hctx
      exact extract_words_ne_nil valid line cursor (by omega)
    refine ⟨hw, ?_⟩
    intro w0 hw0
    simp [call_completion, hne, hw0]
  · intro hreg h1
    have hw : ctx.words ≠ [] := by
      subst hctx
      exact extract_words_ne_nil valid line cursor (by omega)
    obtain ⟨a, t, hat⟩ : ∃ a t, ctx.words = a :: t := by
      cases hcw : ctx.words with
      | nil => exact absurd hcw hw
      | cons a t => exact ⟨a, t, rfl⟩
    simp [call_completion, h1, hat, hreg a]

/-- A registry with no generators registered. -/
def emptyRegistry : String → Option (CompletionContext → Completions) := fun _ => none

/-- A trivial executable-index collaborator. -/
def noComplete : String → Completions := fun _ => Completions.new []

/-- A filesystem collaborator on which every directory open fails. -/
def errFs : Fs := fun _ => Except.error ()

/-- A ranking collaborator that keeps the candidate set verbatim. -/
def idSearch : Search := fun l _ => l

/-- C5 witness: line `ls a`, cursor at end (`current_word_index = 1`),
empty registry: dispatch equals direct path completion. -/
theorem c5_dispatch_witness :
    call_completion emptyRegistry noComplete errFs idSearch
        (extract_completion_context is_valid_word_char ("ls a".toList) 4) =
      path_completion errFs idSearch
        (extract_completion_context is_valid_word_char ("ls a".toList) 4) :=
  (c5_dispatch emptyRegistry noComplete errFs idSearch is_valid_word_char
      ("ls a".toList) 4 _ rfl).2.2 (fun _ => rfl) (by decide)

/-- A non-empty all-separator character list ends in a separator. -/
lemma all_slash_getLast (l : List Char) (hne : l ≠ [])
    (hall : l.all (fun c => c == '/') = true) : l.getLast? = some '/' := by
  induction l with
  | nil => exact absurd rfl hne
  | cons a t ih =>
    cases t with
    | nil =>
      simp only [List.all_cons, List.all_nil, Bool.and_true, beq_iff_eq] at hall
      simp [hall]
    | cons b t2 =>
      rw [List.getLast?_cons_cons]
      refine ih (by simp) ?_
      simp only [List.all_cons, Bool.and_eq_true] at hall ⊢
      exact ⟨hall.2.1, hall.2.2⟩

/-- In the branch of `path_completion` that takes the parent directory
(`contains('/')` but not `ends_with('/')`), `Path::parent` never returns
`None`, so its `unwrap` cannot panic. -/
lemma rustParent_isSome (s : String) (hc : strContainsSlash s = true)
    (he : strEndsWithSlash s = false) : (rustParent s).isSome := by
  have hne : s.data ≠ [] := by
    intro h0
    rw [strContainsSlash, h0] at hc
    simp at hc
  have hall : ¬s.data.all (fun c => c == '/') = true := by
    intro hall
    rw [strEndsWithSlash, all_slash_getLast s.data hne hall] at he
    simp at he
  rw [rustParent, if_neg hne, if_neg hall]
  dsimp only
  split_ifs <;> rfl

/-- `path_completion` always obtains a directory to list: the only `none`
case of `dirToRead` would be a `None` parent, which the branch guards rule
out. -/
lemma dirToRead_ne_none (gd : Option String) : dirToRead gd ≠ none := by
  cases gd with
  | none => simp [dirToRead]
  | some d =>
    simp only [dirToRead]
    split_ifs with h1 h2
    · simp
    · cases hs : strEndsWithSlash d with
      | true => exact absurd hs h1
      | false =>
        have := rustParent_isSome d h2 hs
        intro h0
        rw [h0] at this
        simp at this
    · simp

/-- C6 counterexample: with a directory that opens but whose single entry
fails to read (`entry.unwrap()` panics), and likewise with a single entry
whose path is not valid UTF-8 (`to_str().unwrap()` panics),
`path_completion` panics (`none`) instead of returning an empty candidate
set. -/
theorem c6_counterexample :
    path_completion (fun _ => Except.ok [Except.error ()]) idSearch
        { words := [], current_word_index := 0, line := [], current_word_offset := 0,
          current_word_len := 0, user_cursor := 0 } = none ∧
      path_completion (fun _ => Except.ok [Except.ok none]) idSearch
        { words := [], current_word_index := 0, line := [], current_word_offset := 0,
          current_word_len := 0, user_cursor := 0 } = none := by
  constructor <;> rfl

/-- C6 (amended): a directory-open failure makes `path_completion` return
the empty candidate set (fed through the ranking step), for every context;
but a per-entry read failure or a non-UTF-8 entry path makes it panic via
`unwrap` (see the counterexample), so the no-termination clause does not
extend to those failures. -/
theorem c6_open_failure_empty (fs : Fs) (se : Search) (ctx : CompletionContext)
    (h : ∀ d, fs d = Except.error ()) :
    path_completion fs se ctx =
      some (CompGen.build se { entries := [], query := ctx.current_word }) := by
  unfold path_completion
  cases hd : dirToRead ctx.current_word with
  | none => exact absurd hd (dirToRead_ne_none ctx.current_word)
  | some d => simp [h d]

/-- C6 witness: the all-failing filesystem on a concrete context yields the
empty completion list. -/
theorem c6_open_failure_empty_witness :
    path_completion errFs idSearch
        { words := [], current_word_index := 0, line := [], current_word_offset := 0,
          current_word_len := 0, user_cursor := 0 } = some (Completions.new []) :=
  c6_open_failure_empty errFs idSearch
    { words := [], current_word_index := 0, line := [], current_word_offset := 0,
      current_word_len := 0, user_cursor := 0 } (fun _ => rfl)

/-- Collecting a listing of readable UTF-8 entries succeeds and keeps
them in order. -/
lemma collectEntries_map_ok (es : List String) :
    collectEntries (es.map (fun s => Except.ok (some s))) = some es := by
  induction es with
  | nil => rfl
  | cons a t ih => simp [collectEntries, ih]

/-- The context extracted from line `cat /etc/ho` with cursor 11. -/
def ctx8 : CompletionContext :=
  extract_completion_context is_valid_word_char ("cat /etc/ho".toList) 11

/-- C8: path completion resolves the scan directory from the current word
(the trailing-`/`, contains-`/`-so-parent, else working-directory rule) and
ranks against the whole current word; concretely, for line `cat /etc/ho`
with cursor 11 the context has index 1, offset 4, current word `/etc/ho`,
and path completion lists `/etc` ranked against query `/etc/ho`. -/
theorem c8_path_resolution (fs : Fs) (se : Search) (es : List String)
    (h : fs "/etc" = Except.ok (es.map (fun s => Except.ok (some s)))) :
    ctx8.current_word_index = 1 ∧ ctx8.current_word_offset = 4 ∧
      ctx8.current_word = some "/etc/ho" ∧
      dirToRead ctx8.current_word = some "/etc" ∧
      path_completion fs se ctx8 = some (Completions.new (se es "/etc/ho")) ∧
      (∀ d : String, dirToRead (some d) =
        if strEndsWithSlash d then some d
        else if strContainsSlash d then rustParent d
        else some ".") := by
  have hcw : ctx8.current_word = some "/etc/ho" := by decide
  have hdir : dirToRead ctx8.current_word = some "/etc" := by decide
  refine ⟨by decide, by decide, hcw, hdir, ?_, fun d => rfl⟩
  rw [path_completion, hdir]
  dsimp only
  rw [h]
  dsimp only
  rw [collectEntries_map_ok, hcw]
  simp [CompGen.build]

/-- A filesystem with exactly one readable directory `/etc` holding one
entry `/etc/hosts`. -/
def etcFs : Fs := fun d =>
  if d = "/etc" then Except.ok [Except.ok (some "/etc/hosts")] else Except.error ()

/-- C8 witness: the concrete `/etc` filesystem with the verbatim ranking
collaborator. -/
theorem c8_path_resolution_witness :
    path_completion etcFs idSearch ctx8 = some (Completions.new ["/etc/hosts"]) :=
  (c8_path_resolution etcFs idSearch ["/etc/hosts"] rfl).2.2.2.2.1

/-- `parser::Word`, modelled as the word's text (the alias store only
stores and returns it). -/
abbrev Word := String

/-- `parser::Alias`: the parse result of an alias definition line. -/
structure Alias where
  name : String
  words : List Word
deriving DecidableEq

/-- The `ALIASES` map (`BTreeMap<String, Vec<Word>>`), modelled as a
finite-lookup function. -/
def AliasStore := String → Option (List Word)

/-- `add_alias` of `src/alias.rs`, parametrised by the external grammar
collaborator `parse_alias`: a successful parse inserts (overwriting any
prior binding); a failed parse leaves the store unchanged. -/
def add_alias (parse : String → Except Unit Alias) (line : String)
    (st : AliasStore) : AliasStore :=
  match parse line with
  | Except.ok a => fun x => if x = a.name then some a.words else st x
  | Except.error _ => st

/-- `lookup_alias` of `src/alias.rs`: exact-match read. -/
def lookup_alias (st : AliasStore) (a : String) : Option (List Word) := st a

/-- `alias_command` of `src/alias.rs`: defines `argv[1]` when present and
returns exit status `0` unconditionally. -/
def alias_command (parse : String → Except Unit Alias) (argv : List String)
    (st : AliasStore) : AliasStore × Nat :=
  match argv[1]? with
  | some a => (add_alias parse a st, 0)
  | none => (st, 0)

/-- Split a character list at the first `=`. -/
def splitEq : List Char → Option (List Char × List Char)
  | [] => none
  | c :: rest =>
    if c = '=' then some ([], rest)
    else (splitEq rest).map (fun p => (c :: p.1, p.2))

/-- Split a character list into space-separated words. -/
def splitWordsAux : List Char → List Char → List String
  | [], acc => if acc = [] then [] else [String.mk acc.reverse]
  | c :: r, acc =>
    if c = ' ' then
      if acc = [] then splitWordsAux r []
      else String.mk acc.reverse :: splitWordsAux r []
    else splitWordsAux r (c :: acc)

/-- Modelled from the spec: `parser::parse_alias` is an external grammar
collaborator (spec sections 4.6 and 6) whose definition is not part of the
embedded sources.  It is modelled to parse a statement of the form
`name=word-sequence`: the text before the first `=` is the (non-empty)
name, the remainder is split into space-separated words; anything else is a
parse error. -/
def parse_alias (line : String) : Except Unit Alias :=
  match splitEq line.data with
  | some (n, w) => if n = [] then Except.error () else Except.ok ⟨String.mk n, splitWordsAux w []⟩
  | none => Except.error ()

/-- C9: `alias_command` returns exit status 0 whether or not the definition
line parses; a failed parse leaves the store unchanged; a successful parse
stores the parsed words under the name; a later successful parse for the
same name overwrites, so after `foo=bar` then `foo=baz` the lookup returns
the words of `baz` only (shown with the spec-modelled `parse_alias`). -/
theorem c9_alias_define (parse : String → Except Unit Alias) (st : AliasStore)
    (argv : List String) :
    (alias_command parse argv st).2 = 0 ∧
      (∀ l, argv[1]? = some l → parse l = Except.error () →
        (alias_command parse argv st).1 = st) ∧
      (∀ l n w, parse l = Except.ok ⟨n, w⟩ →
        lookup_alias (add_alias parse l st) n = some w) ∧
      (∀ l1 l2 n w1 w2, parse l1 = Except.ok ⟨n, w1⟩ → parse l2 = Except.ok ⟨n, w2⟩ →
        lookup_alias (add_alias parse l2 (add_alias parse l1 st)) n = some w2) ∧
      lookup_alias (add_alias parse_alias "foo=baz" (add_alias parse_alias "foo=bar" st))
          "foo" = some ["baz"] := by
  refine ⟨?_, ?_, ?_, ?_, ?_⟩
  · cases h : argv[1]? <;> simp [alias_command, h]
  · intro l hl hperr
    simp [alias_command, hl, add_alias, hperr]
  · intro l n w hp
    simp [lookup_alias, add_alias, hp]
  · intro l1 l2 n w1 w2 hp1 hp2
    simp [lookup_alias, add_alias, hp1, hp2]
  · have h1 : parse_alias "foo=bar" = Except.ok ⟨"foo", ["bar"]⟩ := rfl
    have h2 : parse_alias "foo=baz" = Except.ok ⟨"foo", ["baz"]⟩ := rfl
    simp [lookup_alias, add_alias, h1, h2]

/-- C9 witness: a concrete run — defining `foo=bar` then `foo=baz` on the
empty store yields `baz` only; a line that fails to parse leaves the store
unchanged; the builtin always exits 0. -/
theorem c9_alias_define_witness :
    (alias_command parse_alias ["alias", "foo=bar"] (fun _ => none)).2 = 0 ∧
      (alias_command parse_alias ["alias", "oops"] (fun _ => none)).1 = (fun _ => none) ∧
      lookup_alias
        (add_alias parse_alias "foo=baz"
          (add_alias parse_alias "foo=bar" (fun _ => none))) "foo" = some ["baz"] := by
  refine ⟨(c9_alias_define parse_alias (fun _ => none) ["alias", "foo=bar"]).1, ?_, ?_⟩
  · exact (c9_alias_define parse_alias (fun _ => none) ["alias", "oops"]).2.1 "oops"
      rfl rfl
  · exact (c9_alias_define parse_alias (fun _ => none) ["alias", "foo=bar"]).2.2.2.2

/-- C10: the `selected` accessor is total on every state reachable by any
sequence of `move_cursor` calls: it returns the entry at `selected_index`
when that index is in bounds and `none` otherwise (`entries.get(i).cloned()`
— no panic even when `selected_index` is out of range). -/
theorem c10_selected_total (entries : List String) (offs : List Int) (c : Completions)
    (_hc : c = offs.foldl Completions.move_cursor (Completions.new entries)) :
    (∀ h : c.selected_index < c.entries.length,
      c.selected = some (c.entries.get ⟨c.selected_index, h⟩)) ∧
      (c.entries.length ≤ c.selected_index → c.selected = none) := by
  constructor
  · intro h
    simp [Completions.selected, List.getElem?_eq_getElem h]
  · intro h
    simp [Completions.selected, List.getElem?_eq_none h]

/-- C10 witness: in bounds on a fresh browser; out of bounds after
`move_cursor 2` on an empty entries list (a reachable state with
`selected_index = 2`). -/
theorem c10_selected_total_witness :
    (Completions.new ["a"]).selected = some "a" ∧
      (List.foldl Completions.move_cursor (Completions.new ([] : List String)) [2]).selected =
        none := by
  constructor
  · exact (c10_selected_total ["a"] [] _ rfl).1 (by decide)
  · exact (c10_selected_total [] [2] _ rfl).2 (by decide)
